import Mathlib

/-!
Verification of the habit-tracker backend (`src/main.py`).

The backend is a FastAPI service over a MongoDB document store with two
collections, `habit` and `habitlog`.  We embed the store state as explicit
lists of records plus a counter that supplies both the store-generated
ObjectIds and the monotone `utcnow()` timestamps (each insert performs one
tick).  `find_one` / `delete_one` act on the first matching record in
insertion (natural) order, `find` filters, `delete_many` removes all
matches, and `.sort("created_at", -1)` sorts descending by the stored
creation timestamp — exactly the capability set the handlers consume.

ObjectIds are modelled as natural numbers; `str(oid)` is the 24-character
lowercase hex rendering `oidToString`, and `bson.ObjectId(id_str)` accepts
exactly the strings of 24 hex characters (either case), modelled by
`coerceObjectid`.

Each handler below is a direct transcription of the corresponding Python
function (the `db is None` / unconfigured branch is the degenerate
server-error path and is outside the store-state semantics modelled here).
-/

set_option autoImplicit false

namespace HabitTracker

/-- Hex-digit test, as accepted by `bytes.fromhex` inside `bson.ObjectId`. -/
def isHexDigit (c : Char) : Bool :=
  (('0' ≤ c) && (c ≤ '9')) || (('a' ≤ c) && (c ≤ 'f')) || (('A' ≤ c) && (c ≤ 'F'))

/-- Numeric value of a hex digit, `none` on a non-hex character. -/
def hexVal (c : Char) : Option Nat :=
  if ('0' ≤ c) && (c ≤ '9') then some (c.toNat - 48)
  else if ('a' ≤ c) && (c ≤ 'f') then some (c.toNat - 87)
  else if ('A' ≤ c) && (c ≤ 'F') then some (c.toNat - 55)
  else none

/-- Parse a list of hex digits into a number (big-endian), failing on a
non-hex character. -/
def parseHexAux : List Char → Nat → Option Nat
  | [], acc => some acc
  | c :: cs, acc =>
    match hexVal c with
    | none => none
    | some v => parseHexAux cs (acc * 16 + v)

/-- `_coerce_objectid` (src/main.py:72–76): `ObjectId(id_str)` succeeds
exactly on strings of 24 hex characters; the resulting ObjectId value is the
12-byte number the hex encodes.  `none` models the raised
`HTTPException(400, "Invalid ID format")`. -/
def coerceObjectid (id_str : String) : Option Nat :=
  if id_str.length = 24 then parseHexAux id_str.data 0 else none

/-- The hex character for a digit value below 16 (lowercase, as
`str(ObjectId)` renders). -/
def hexChar (n : Nat) : Char :=
  if n < 10 then Char.ofNat (48 + n) else Char.ofNat (87 + n)

/-- Big-endian, zero-padded hex digits of `n`, exactly `d` of them. -/
def toHexPad : Nat → Nat → List Char
  | 0, _ => []
  | d + 1, n => toHexPad d (n / 16) ++ [hexChar (n % 16)]

/-- `str(oid)`: the 24-character lowercase hex rendering of an ObjectId. -/
def oidToString (n : Nat) : String := ⟨toHexPad 24 n⟩

/-- A document of the `habit` collection:
`{_id, name, description?, color, frequency, days_of_week?, created_at, updated_at}`. -/
structure HabitDoc where
  oid : Nat
  name : String
  description : Option String
  color : String
  frequency : String
  days_of_week : Option (List Int)
  created_at : Nat
  updated_at : Nat
deriving DecidableEq, Repr

/-- A document of the `habitlog` collection:
`{_id, habit_id, day, value, created_at, updated_at}`.  `habit_id` is the raw
path-parameter string, `day` the ISO `YYYY-MM-DD` string. -/
structure LogDoc where
  oid : Nat
  habit_id : String
  day : String
  value : Int
  created_at : Nat
  updated_at : Nat
deriving DecidableEq, Repr

/-- The document store: the two collections in natural (insertion) order,
plus the counter supplying fresh ObjectIds and `utcnow()` ticks. -/
structure DB where
  habit : List HabitDoc
  habitlog : List LogDoc
  counter : Nat
deriving DecidableEq, Repr

def emptyDB : DB := ⟨[], [], 0⟩

/-- Request body of POST `/api/habits` (pydantic `HabitIn`,
src/main.py:21–26).  `name` is any string — pydantic validates only the
shape, so the empty string is accepted. -/
structure HabitIn where
  name : String
  description : Option String
  color : String
  frequency : String
  days_of_week : Option (List Int)
deriving DecidableEq, Repr

/-- Response shape `HabitOut` (src/main.py:28–29): the habit fields plus the
stringified generated id; no timestamps. -/
structure HabitOut where
  id : String
  name : String
  description : Option String
  color : String
  frequency : String
  days_of_week : Option (List Int)
deriving DecidableEq, Repr

/-- `create_habit` (src/main.py:80–90): insert the payload plus server
timestamps into `habit`; return the payload plus the stringified inserted
id. -/
def create_habit (habit : HabitIn) (s : DB) : HabitOut × DB :=
  let doc : HabitDoc :=
    ⟨s.counter, habit.name, habit.description, habit.color, habit.frequency,
      habit.days_of_week, s.counter, s.counter⟩
  (⟨oidToString s.counter, habit.name, habit.description, habit.color,
      habit.frequency, habit.days_of_week⟩,
    { s with habit := s.habit ++ [doc], counter := s.counter + 1 })

/-- The response shaping of `list_habits`: `d["id"] = str(d.pop("_id"))`,
drop `created_at` / `updated_at`. -/
def habitToOut (d : HabitDoc) : HabitOut :=
  ⟨oidToString d.oid, d.name, d.description, d.color, d.frequency, d.days_of_week⟩

/-- Insert into a list kept descending by `created_at` (auxiliary for the
store's sort). -/
def insertDescByCreated (d : HabitDoc) : List HabitDoc → List HabitDoc
  | [] => [d]
  | x :: xs =>
    if x.created_at ≤ d.created_at then d :: x :: xs
    else x :: insertDescByCreated d xs

/-- The store's `.sort("created_at", -1)`: descending by creation
timestamp. -/
def sortDescByCreated (l : List HabitDoc) : List HabitDoc :=
  l.foldr insertDescByCreated []

/-- `list_habits` (src/main.py:92–104): all habits, newest first, shaped as
`HabitOut`. -/
def list_habits (s : DB) : List HabitOut :=
  (sortDescByCreated s.habit).map habitToOut

/-- The three observable outcomes of DELETE `/api/habits/{habit_id}`:
`{ok: true}`, HTTP 404 "Habit not found", HTTP 400 "Invalid ID format". -/
inductive DeleteResult where
  | ok
  | notFound
  | invalidId
deriving DecidableEq, Repr

/-- `delete_one({"_id": oid})` on the `habit` collection: remove the first
record with that id; return the deleted count with the new collection. -/
def deleteOneHabit (oid : Nat) : List HabitDoc → Nat × List HabitDoc
  | [] => (0, [])
  | x :: xs =>
    if x.oid = oid then (1, xs)
    else
      let r := deleteOneHabit oid xs
      (r.1, x :: r.2)

/-- `delete_habit` (src/main.py:106–116): coerce the id (400 on failure),
`delete_one` the habit (404 when nothing was deleted), then `delete_many`
the logs whose `habit_id` equals the raw path string. -/
def delete_habit (habit_id : String) (s : DB) : DeleteResult × DB :=
  match coerceObjectid habit_id with
  | none => (.invalidId, s)
  | some oid =>
    let res := deleteOneHabit oid s.habit
    if res.1 = 0 then (.notFound, s)
    else
      (.ok, { s with
                habit := res.2,
                habitlog := s.habitlog.filter (fun l => l.habit_id != habit_id) })

/-- `find_one({"habit_id": habit_id, "day": day_str})`: the first record in
natural order matching both equalities. -/
def findOneLog (habit_id day : String) : List LogDoc → Option LogDoc
  | [] => none
  | x :: xs =>
    if x.habit_id == habit_id && x.day == day then some x
    else findOneLog habit_id day xs

/-- `delete_one({"_id": oid})` on the `habitlog` collection. -/
def deleteOneLog (oid : Nat) : List LogDoc → List LogDoc
  | [] => []
  | x :: xs => if x.oid = oid then xs else x :: deleteOneLog oid xs

/-- `toggle_log` (src/main.py:120–138): look the `(habit_id, day)` pair up;
if found, `delete_one` by the found record's `_id` and answer
`{checked: false}`; otherwise insert a fresh log and answer
`{checked: true}`.  The Bool is the `checked` field of the response. -/
def toggle_log (habit_id day : String) (value : Int) (s : DB) : Bool × DB :=
  match findOneLog habit_id day s.habitlog with
  | some existing =>
    (false, { s with habitlog := deleteOneLog existing.oid s.habitlog })
  | none =>
    let newLog : LogDoc := ⟨s.counter, habit_id, day, value, s.counter, s.counter⟩
    (true, { s with habitlog := s.habitlog ++ [newLog], counter := s.counter + 1 })

/-- Python truthiness of an optional query string: present and non-empty. -/
def strTruthy : Option String → Bool
  | none => false
  | some s => s != ""

/-- `get_logs` (src/main.py:140–150): all logs with the given `habit_id`;
the `$gte`/`$lte` day range applies only when `start and end` is truthy
(both present and non-empty). -/
def get_logs (habit_id : String) (start_ end_ : Option String) (s : DB) :
    List LogDoc :=
  if strTruthy start_ && strTruthy end_ then
    s.habitlog.filter (fun l =>
      l.habit_id == habit_id
        && decide (start_.getD "" ≤ l.day) && decide (l.day ≤ end_.getD ""))
  else
    s.habitlog.filter (fun l => l.habit_id == habit_id)

/-- All log `_id`s are below the counter: freshly generated ids are new. -/
def logIdsFresh (s : DB) : Prop := ∀ l ∈ s.habitlog, l.oid < s.counter

/-- Log `_id`s are pairwise distinct (store-generated ids are unique). -/
def logIdsNodup (s : DB) : Prop := (s.habitlog.map LogDoc.oid).Nodup

/-- Habit `_id`s are pairwise distinct. -/
def habitIdsNodup (s : DB) : Prop := (s.habit.map HabitDoc.oid).Nodup

/-- Number of log records for a `(habit_id, day)` pair. -/
def countPair (habit_id day : String) (logs : List LogDoc) : Nat :=
  (logs.filter (fun l => l.habit_id == habit_id && l.day == day)).length

/-! ### Lemmas about the store primitives -/

theorem findOneLog_eq_none {habit_id day : String} {logs : List LogDoc} :
    findOneLog habit_id day logs = none ↔
      ∀ l ∈ logs, ¬(l.habit_id = habit_id ∧ l.day = day) := by
  induction logs with
  | nil => simp [findOneLog]
  | cons x xs ih =>
    by_cases hx : x.habit_id = habit_id ∧ x.day = day
    · have hfind : findOneLog habit_id day (x :: xs) = some x := by
        simp [findOneLog, hx.1, hx.2]
      rw [hfind]
      constructor
      · intro h
        exact Option.noConfusion h
      · intro h
        exact absurd hx (h x (List.mem_cons_self x xs))
    · have hcond : (x.habit_id == habit_id && x.day == day) = false := by
        rcases Decidable.not_and_iff_or_not.mp hx with h | h <;>
          simp [h]
      simp only [findOneLog, hcond, Bool.false_eq_true, if_false, List.mem_cons]
      constructor
      · intro h l hl
        rcases hl with rfl | hl
        · exact hx
        · exact ih.mp h l hl
      · intro h
        exact ih.mpr fun l hl => h l (Or.inr hl)

theorem findOneLog_some_decomp {habit_id day : String} {logs : List LogDoc}
    {e : LogDoc} (h : findOneLog habit_id day logs = some e) :
    e.habit_id = habit_id ∧ e.day = day ∧
      ∃ l₁ l₂, logs = l₁ ++ e :: l₂ ∧
        ∀ x ∈ l₁, ¬(x.habit_id = habit_id ∧ x.day = day) := by
  induction logs with
  | nil => simp [findOneLog] at h
  | cons x xs ih =>
    by_cases hx : x.habit_id = habit_id ∧ x.day = day
    · have : findOneLog habit_id day (x :: xs) = some x := by
        simp [findOneLog, hx.1, hx.2]
      rw [this] at h
      cases h
      exact ⟨hx.1, hx.2, [], xs, rfl, by simp⟩
    · have hcond : (x.habit_id == habit_id && x.day == day) = false := by
        rcases Decidable.not_and_iff_or_not.mp hx with h' | h' <;> simp [h']
      rw [findOneLog, hcond] at h
      simp only [Bool.false_eq_true, if_false] at h
      obtain ⟨h1, h2, l₁, l₂, hsplit, hl₁⟩ := ih h
      refine ⟨h1, h2, x :: l₁, l₂, by simp [hsplit], ?_⟩
      intro y hy
      rcases List.mem_cons.mp hy with rfl | hy
      · exact hx
      · exact hl₁ y hy

theorem findOneLog_append {habit_id day : String} {l₁ l₂ : List LogDoc} :
    findOneLog habit_id day (l₁ ++ l₂)
      = (findOneLog habit_id day l₁).orElse (fun _ => findOneLog habit_id day l₂) := by
  induction l₁ with
  | nil => simp [findOneLog]
  | cons x xs ih =>
    by_cases hc : (x.habit_id == habit_id && x.day == day) = true
    · simp [findOneLog, hc]
    · simp only [List.cons_append, findOneLog, hc, Bool.false_eq_true, if_false]
      exact ih

theorem deleteOneLog_append_first {oid : Nat} {l₁ l₂ : List LogDoc} {x : LogDoc}
    (hx : x.oid = oid) (h₁ : ∀ y ∈ l₁, y.oid ≠ oid) :
    deleteOneLog oid (l₁ ++ x :: l₂) = l₁ ++ l₂ := by
  induction l₁ with
  | nil => simp [deleteOneLog, hx]
  | cons y ys ih =>
    have hy : y.oid ≠ oid := h₁ y (by simp)
    simp only [List.cons_append, deleteOneLog, hy, if_false]
    exact congrArg (List.cons y) (ih fun z hz => h₁ z (by simp [hz]))

theorem deleteOneLog_sublist (oid : Nat) (l : List LogDoc) :
    (deleteOneLog oid l).Sublist l := by
  induction l with
  | nil => simp [deleteOneLog]
  | cons x xs ih =>
    by_cases hx : x.oid = oid
    · simp only [deleteOneLog, hx, if_true]
      exact (List.sublist_cons_self x xs)
    · simp only [deleteOneLog, hx, if_false]
      exact ih.cons₂ x

theorem countPair_append (habit_id day : String) (l₁ l₂ : List LogDoc) :
    countPair habit_id day (l₁ ++ l₂)
      = countPair habit_id day l₁ + countPair habit_id day l₂ := by
  simp [countPair]

theorem countPair_eq_zero {habit_id day : String} {logs : List LogDoc} :
    countPair habit_id day logs = 0 ↔
      ∀ l ∈ logs, ¬(l.habit_id = habit_id ∧ l.day = day) := by
  rw [countPair, List.length_eq_zero, List.filter_eq_nil_iff]
  constructor
  · intro h l hl hcontr
    have := h l hl
    simp [hcontr.1, hcontr.2] at this
  · intro h l hl
    have := h l hl
    rcases Decidable.not_and_iff_or_not.mp this with h' | h' <;> simp [h']

theorem nodup_middle_oid {l₁ l₂ : List LogDoc} {e : LogDoc}
    (h : ((l₁ ++ e :: l₂).map LogDoc.oid).Nodup) :
    ∀ y ∈ l₁, y.oid ≠ e.oid := by
  rw [List.map_append, List.map_cons] at h
  have h2 := (List.nodup_cons.mp (List.nodup_middle.mp h)).1
  intro y hy hcontra
  exact h2 (by
    apply List.mem_append_left
    rw [← hcontra]
    exact List.mem_map_of_mem LogDoc.oid hy)

theorem countPair_cons_match {habit_id day : String} {e : LogDoc}
    (h1 : e.habit_id = habit_id) (h2 : e.day = day) (l : List LogDoc) :
    countPair habit_id day (e :: l) = countPair habit_id day l + 1 := by
  simp [countPair, List.filter_cons, h1, h2]

/-! ### The claims -/

/-- A one-element `habitlog` store used to instantiate theorems about
states with a pre-existing log. -/
def log24A : LogDoc := ⟨0, "h", "2024-01-01", 5, 0, 0⟩

/-- A store holding exactly `log24A`. -/
def dbOneLog : DB := ⟨[], [log24A], 1⟩

/-- C2: a single toggle looks up the exact `(habit_id, day)` pair; if no
log is found it inserts a record carrying `habit_id`, `day`, `value` and the
server timestamps and responds `{checked: true}`; if one is found it deletes
that very record and responds `{checked: false}`. -/
theorem toggle_single_call_spec (s : DB) (habit_id day : String) (v : Int)
    (hnodup : logIdsNodup s) :
    (findOneLog habit_id day s.habitlog = none →
      (toggle_log habit_id day v s).1 = true ∧
      (toggle_log habit_id day v s).2.habitlog
        = s.habitlog ++ [⟨s.counter, habit_id, day, v, s.counter, s.counter⟩]) ∧
    (∀ e, findOneLog habit_id day s.habitlog = some e →
      (toggle_log habit_id day v s).1 = false ∧
      e.habit_id = habit_id ∧ e.day = day ∧
      ∃ l₁ l₂, s.habitlog = l₁ ++ e :: l₂ ∧
        (toggle_log habit_id day v s).2.habitlog = l₁ ++ l₂) := by
  constructor
  · intro hnone
    simp only [toggle_log, hnone]
    exact ⟨trivial, trivial⟩
  · intro e he
    simp only [toggle_log, he]
    obtain ⟨h1, h2, l₁, l₂, hsplit, -⟩ := findOneLog_some_decomp he
    refine ⟨trivial, h1, h2, l₁, l₂, hsplit, ?_⟩
    have hnd : ((l₁ ++ e :: l₂).map LogDoc.oid).Nodup := by
      rw [← hsplit]; exact hnodup
    rw [hsplit]
    exact deleteOneLog_append_first rfl (nodup_middle_oid hnd)

/-- Witness for C2 at a concrete store with a pre-existing log. -/
theorem toggle_single_call_spec_witness :
    (toggle_log "h" "2024-01-01" 1 dbOneLog).1 = false ∧
    log24A.habit_id = "h" ∧ log24A.day = "2024-01-01" ∧
    ∃ l₁ l₂, dbOneLog.habitlog = l₁ ++ log24A :: l₂ ∧
      (toggle_log "h" "2024-01-01" 1 dbOneLog).2.habitlog = l₁ ++ l₂ :=
  (toggle_single_call_spec dbOneLog "h" "2024-01-01" 1
      (show (dbOneLog.habitlog.map LogDoc.oid).Nodup by decide)).2
    log24A (by decide)

/-- A store holding two duplicate logs for the pair `("h", "2024-01-01")`
(as a race between concurrent toggles can leave behind). -/
def dbDupLogs : DB :=
  ⟨[], [⟨0, "h", "2024-01-01", 1, 0, 0⟩, ⟨1, "h", "2024-01-01", 1, 0, 0⟩], 2⟩

/-- C10: when `n ≥ 1` logs exist for a pair (for instance duplicates left by
a race), a single toggle deletes exactly the record found by the lookup
(removed by its own `_id`), responds `{checked: false}`, and leaves `n - 1`
records for the pair. -/
theorem toggle_deletes_exactly_one_duplicate (s : DB) (habit_id day : String)
    (v : Int) (hnodup : logIdsNodup s) (e : LogDoc)
    (hfound : findOneLog habit_id day s.habitlog = some e) :
    (toggle_log habit_id day v s).1 = false ∧
    e.habit_id = habit_id ∧ e.day = day ∧
    (∃ l₁ l₂, s.habitlog = l₁ ++ e :: l₂ ∧
      (toggle_log habit_id day v s).2.habitlog = l₁ ++ l₂) ∧
    countPair habit_id day (toggle_log habit_id day v s).2.habitlog + 1
      = countPair habit_id day s.habitlog := by
  obtain ⟨h1, h2, l₁, l₂, hsplit, -⟩ := findOneLog_some_decomp hfound
  have hnd : ((l₁ ++ e :: l₂).map LogDoc.oid).Nodup := by
    rw [← hsplit]; exact hnodup
  have hdel : (toggle_log habit_id day v s).2.habitlog = l₁ ++ l₂ := by
    simp only [toggle_log, hfound]
    rw [hsplit]
    exact deleteOneLog_append_first rfl (nodup_middle_oid hnd)
  refine ⟨by simp [toggle_log, hfound], h1, h2, ⟨l₁, l₂, hsplit, hdel⟩, ?_⟩
  rw [hdel, hsplit, countPair_append, countPair_append,
    countPair_cons_match h1 h2]
  omega

/-- Witness for C10 at a store holding two duplicate logs for the pair. -/
theorem toggle_deletes_exactly_one_duplicate_witness :
    (toggle_log "h" "2024-01-01" 1 dbDupLogs).1 = false ∧
    (⟨0, "h", "2024-01-01", 1, 0, 0⟩ : LogDoc).habit_id = "h" ∧
    (⟨0, "h", "2024-01-01", 1, 0, 0⟩ : LogDoc).day = "2024-01-01" ∧
    (∃ l₁ l₂, dbDupLogs.habitlog = l₁ ++ ⟨0, "h", "2024-01-01", 1, 0, 0⟩ :: l₂ ∧
      (toggle_log "h" "2024-01-01" 1 dbDupLogs).2.habitlog = l₁ ++ l₂) ∧
    countPair "h" "2024-01-01" (toggle_log "h" "2024-01-01" 1 dbDupLogs).2.habitlog + 1
      = countPair "h" "2024-01-01" dbDupLogs.habitlog :=
  toggle_deletes_exactly_one_duplicate dbDupLogs "h" "2024-01-01" 1
    (show (dbDupLogs.habitlog.map LogDoc.oid).Nodup by decide)
    ⟨0, "h", "2024-01-01", 1, 0, 0⟩ (by decide)

/-- C1 (counterexample): with a pre-existing log of value 5, toggling twice
with value 1 answers `{checked:false}` then `{checked:true}` as the claim
says, but the log set is NOT returned to its pre-call state: the surviving
record is a fresh one (new `_id`, value 1, new timestamps), not the original. -/
theorem toggle_round_trip_counterexample :
    (toggle_log "h" "2024-01-01" 1 dbOneLog).1 = false ∧
    (toggle_log "h" "2024-01-01" 1 (toggle_log "h" "2024-01-01" 1 dbOneLog).2).1 = true ∧
    ¬((toggle_log "h" "2024-01-01" 1
        (toggle_log "h" "2024-01-01" 1 dbOneLog).2).2.habitlog
      = dbOneLog.habitlog) := by decide

/-- C1 (amended): over a well-formed store with at most one log for the
pair, toggling twice: with no pre-existing log, the responses are
`{checked:true}` then `{checked:false}` and the log collection is restored
exactly; with a pre-existing log, the responses are `{checked:false}` then
`{checked:true}` and the set of `(habit_id, day)` pairs holding a log is
restored (the pair's record itself is replaced by a fresh one). -/
theorem toggle_round_trip_amended (s : DB) (habit_id day : String)
    (v₁ v₂ : Int) (hfresh : logIdsFresh s) (hnodup : logIdsNodup s)
    (hamo : countPair habit_id day s.habitlog ≤ 1) :
    (findOneLog habit_id day s.habitlog = none →
      (toggle_log habit_id day v₁ s).1 = true ∧
      (toggle_log habit_id day v₂ (toggle_log habit_id day v₁ s).2).1 = false ∧
      (toggle_log habit_id day v₂
          (toggle_log habit_id day v₁ s).2).2.habitlog = s.habitlog) ∧
    (∀ e, findOneLog habit_id day s.habitlog = some e →
      (toggle_log habit_id day v₁ s).1 = false ∧
      (toggle_log habit_id day v₂ (toggle_log habit_id day v₁ s).2).1 = true ∧
      (∀ h d,
        (∃ l ∈ (toggle_log habit_id day v₂
            (toggle_log habit_id day v₁ s).2).2.habitlog,
          l.habit_id = h ∧ l.day = d) ↔
        (∃ l ∈ s.habitlog, l.habit_id = h ∧ l.day = d))) := by
  constructor
  · intro hnone
    have hstep1 : toggle_log habit_id day v₁ s
        = (true, ⟨s.habit,
            s.habitlog ++ [⟨s.counter, habit_id, day, v₁, s.counter, s.counter⟩],
            s.counter + 1⟩) := by
      simp only [toggle_log, hnone]
    have hfind2 : findOneLog habit_id day
        (s.habitlog ++ [⟨s.counter, habit_id, day, v₁, s.counter, s.counter⟩])
        = some ⟨s.counter, habit_id, day, v₁, s.counter, s.counter⟩ := by
      rw [findOneLog_append, hnone]
      simp [findOneLog]
    have hdel : deleteOneLog s.counter
        (s.habitlog ++ [⟨s.counter, habit_id, day, v₁, s.counter, s.counter⟩])
        = s.habitlog := by
      have := @deleteOneLog_append_first s.counter s.habitlog []
        ⟨s.counter, habit_id, day, v₁, s.counter, s.counter⟩
        rfl (fun y hy => Nat.ne_of_lt (hfresh y hy))
      simpa using this
    refine ⟨by rw [hstep1], ?_, ?_⟩
    · rw [hstep1]
      simp only [toggle_log, hfind2]
    · rw [hstep1]
      simp only [toggle_log, hfind2]
      exact hdel
  · intro e he
    obtain ⟨h1, h2, l₁, l₂, hsplit, -⟩ := findOneLog_some_decomp he
    have hnd : ((l₁ ++ e :: l₂).map LogDoc.oid).Nodup := by
      rw [← hsplit]; exact hnodup
    have hdel : deleteOneLog e.oid s.habitlog = l₁ ++ l₂ := by
      rw [hsplit]
      exact deleteOneLog_append_first rfl (nodup_middle_oid hnd)
    have hstep1 : toggle_log habit_id day v₁ s
        = (false, ⟨s.habit, l₁ ++ l₂, s.counter⟩) := by
      simp only [toggle_log, he]
      rw [hdel]
    have hcount : countPair habit_id day l₁ = 0 ∧ countPair habit_id day l₂ = 0 := by
      rw [hsplit, countPair_append, countPair_cons_match h1 h2] at hamo
      omega
    have hfind2 : findOneLog habit_id day (l₁ ++ l₂) = none := by
      apply findOneLog_eq_none.mpr
      intro l hl
      rcases List.mem_append.mp hl with hl | hl
      · exact countPair_eq_zero.mp hcount.1 l hl
      · exact countPair_eq_zero.mp hcount.2 l hl
    have hstep2 : toggle_log habit_id day v₂ (toggle_log habit_id day v₁ s).2
        = (true, ⟨s.habit,
            (l₁ ++ l₂) ++ [⟨s.counter, habit_id, day, v₂, s.counter, s.counter⟩],
            s.counter + 1⟩) := by
      rw [hstep1]
      simp only [toggle_log, hfind2]
    refine ⟨by rw [hstep1], by rw [hstep2], ?_⟩
    intro h d
    rw [hstep2, hsplit]
    show (∃ l ∈ (l₁ ++ l₂) ++ [(⟨s.counter, habit_id, day, v₂, s.counter, s.counter⟩ : LogDoc)],
        l.habit_id = h ∧ l.day = d) ↔
      (∃ l ∈ l₁ ++ e :: l₂, l.habit_id = h ∧ l.day = d)
    by_cases hpair : h = habit_id ∧ d = day
    · apply iff_of_true
      · exact ⟨⟨s.counter, habit_id, day, v₂, s.counter, s.counter⟩,
          List.mem_append_right _ (List.mem_singleton_self _),
          hpair.1.symm, hpair.2.symm⟩
      · exact ⟨e, by rw [List.mem_append]; exact Or.inr (List.mem_cons_self e l₂),
          h1.trans hpair.1.symm, h2.trans hpair.2.symm⟩
    · constructor
      · rintro ⟨l, hl, hlh, hld⟩
        rcases List.mem_append.mp hl with hl | hl
        · rcases List.mem_append.mp hl with hl | hl
          · exact ⟨l, List.mem_append_left _ hl, hlh, hld⟩
          · exact ⟨l, List.mem_append_right _ (List.mem_cons_of_mem e hl), hlh, hld⟩
        · have : l = ⟨s.counter, habit_id, day, v₂, s.counter, s.counter⟩ :=
            List.mem_singleton.mp hl
          subst this
          exact absurd ⟨hlh.symm, hld.symm⟩ hpair
      · rintro ⟨l, hl, hlh, hld⟩
        rcases List.mem_append.mp hl with hl | hl
        · exact ⟨l, List.mem_append_left _ (List.mem_append_left _ hl), hlh, hld⟩
        · rcases List.mem_cons.mp hl with rfl | hl
          · exact absurd ⟨(h1 ▸ hlh).symm, (h2 ▸ hld).symm⟩ hpair
          · exact ⟨l, List.mem_append_left _ (List.mem_append_right _ hl), hlh, hld⟩

/-- Witness for C1's amended theorem at a concrete store with one
pre-existing log. -/
theorem toggle_round_trip_amended_witness :
    (toggle_log "h" "2024-01-01" 1 dbOneLog).1 = false ∧
    (toggle_log "h" "2024-01-01" 1 (toggle_log "h" "2024-01-01" 1 dbOneLog).2).1 = true ∧
    (∀ h d,
      (∃ l ∈ (toggle_log "h" "2024-01-01" 1
          (toggle_log "h" "2024-01-01" 1 dbOneLog).2).2.habitlog,
        l.habit_id = h ∧ l.day = d) ↔
      (∃ l ∈ dbOneLog.habitlog, l.habit_id = h ∧ l.day = d)) :=
  (toggle_round_trip_amended dbOneLog "h" "2024-01-01" 1 1
      (show ∀ l ∈ dbOneLog.habitlog, l.oid < dbOneLog.counter by decide)
      (show (dbOneLog.habitlog.map LogDoc.oid).Nodup by decide)
      (by decide)).2
    log24A (by decide)

/-- A finite sequence of non-concurrent toggle calls for a fixed
`(habit_id, day)` pair, one call per listed `value`. -/
def toggleMany (habit_id day : String) : List Int → DB → DB
  | [], s => s
  | v :: vs, s => toggleMany habit_id day vs (toggle_log habit_id day v s).2

theorem countPair_toggle_le_one {s : DB} {habit_id day : String} (v : Int)
    (h : countPair habit_id day s.habitlog ≤ 1) :
    countPair habit_id day (toggle_log habit_id day v s).2.habitlog ≤ 1 := by
  cases hf : findOneLog habit_id day s.habitlog with
  | none =>
    have h0 : countPair habit_id day s.habitlog = 0 :=
      countPair_eq_zero.mpr (findOneLog_eq_none.mp hf)
    simp only [toggle_log, hf]
    rw [countPair_append, h0]
    simp [countPair, List.filter_cons]
  | some e =>
    simp only [toggle_log, hf]
    calc countPair habit_id day (deleteOneLog e.oid s.habitlog)
        ≤ countPair habit_id day s.habitlog :=
          List.Sublist.length_le (List.Sublist.filter _ (deleteOneLog_sublist _ _))
      _ ≤ 1 := h

/-- C3: starting from a store holding at most one log for the fixed
`(habit_id, day)` pair, any finite sequence of non-concurrent toggle calls
for that pair leaves at most one log for it. -/
theorem at_most_one_log_per_day (habit_id day : String) (vals : List Int)
    (s : DB) (h : countPair habit_id day s.habitlog ≤ 1) :
    countPair habit_id day (toggleMany habit_id day vals s).habitlog ≤ 1 := by
  induction vals generalizing s with
  | nil => exact h
  | cons v vs ih => exact ih _ (countPair_toggle_le_one v h)

/-- Witness for C3: three toggles from the empty store. -/
theorem at_most_one_log_per_day_witness :
    countPair "h" "2024-01-01"
      (toggleMany "h" "2024-01-01" [1, 2, 3] emptyDB).habitlog ≤ 1 :=
  at_most_one_log_per_day "h" "2024-01-01" [1, 2, 3] emptyDB (by decide)

theorem hexVal_hexChar (m : Nat) (h : m < 16) : hexVal (hexChar m) = some m := by
  interval_cases m <;> decide

theorem parseHexAux_append (xs ys : List Char) (acc : Nat) :
    parseHexAux (xs ++ ys) acc
      = (parseHexAux xs acc).bind fun a => parseHexAux ys a := by
  induction xs generalizing acc with
  | nil => simp [parseHexAux]
  | cons c cs ih =>
    cases hv : hexVal c with
    | none => simp [parseHexAux, hv]
    | some v => simp [parseHexAux, hv, ih]

theorem parseHexAux_toHexPad (d : Nat) :
    ∀ n acc, n < 16 ^ d → parseHexAux (toHexPad d n) acc = some (acc * 16 ^ d + n) := by
  induction d with
  | zero =>
    intro n acc h
    have hn : n = 0 := by simpa using h
    subst hn
    simp [toHexPad, parseHexAux]
  | succ d ih =>
    intro n acc h
    rw [toHexPad, parseHexAux_append]
    have hdiv : n / 16 < 16 ^ d := by
      rw [Nat.div_lt_iff_lt_mul (by norm_num)]
      calc n < 16 ^ (d + 1) := h
        _ = 16 ^ d * 16 := by rw [pow_succ]
    rw [ih (n / 16) acc hdiv]
    simp only [Option.some_bind, parseHexAux,
      hexVal_hexChar _ (Nat.mod_lt n (by norm_num))]
    congr 1
    rw [pow_succ, ← mul_assoc]
    generalize acc * 16 ^ d = B
    omega

theorem toHexPad_length (d : Nat) : ∀ n, (toHexPad d n).length = d := by
  induction d with
  | zero => intro n; simp [toHexPad]
  | succ d ih => intro n; simp [toHexPad, ih]

theorem coerceObjectid_oidToString (n : Nat) (h : n < 16 ^ 24) :
    coerceObjectid (oidToString n) = some n := by
  have hlen : (oidToString n).length = 24 := toHexPad_length 24 n
  rw [coerceObjectid, if_pos hlen]
  have := parseHexAux_toHexPad 24 n 0 h
  simpa using this

theorem deleteOneHabit_of_not_mem {oid : Nat} {l : List HabitDoc}
    (h : ∀ x ∈ l, x.oid ≠ oid) : deleteOneHabit oid l = (0, l) := by
  induction l with
  | nil => rfl
  | cons x xs ih =>
    have hx : x.oid ≠ oid := h x (by simp)
    simp only [deleteOneHabit, hx, if_false]
    rw [ih fun z hz => h z (by simp [hz])]

theorem deleteOneHabit_fst_ne_zero {h : HabitDoc} {l : List HabitDoc}
    (hmem : h ∈ l) : (deleteOneHabit h.oid l).1 ≠ 0 := by
  induction l with
  | nil => cases hmem
  | cons x xs ih =>
    by_cases hx : x.oid = h.oid
    · simp [deleteOneHabit, hx]
    · have hmem' : h ∈ xs := by
        rcases List.mem_cons.mp hmem with rfl | hm
        · exact absurd rfl hx
        · exact hm
      simp only [deleteOneHabit, hx, if_false]
      exact ih hmem'

theorem deleteOneHabit_snd_no_oid {oid : Nat} {l : List HabitDoc}
    (hnodup : (l.map HabitDoc.oid).Nodup) :
    ∀ hb ∈ (deleteOneHabit oid l).2, hb.oid ≠ oid := by
  induction l with
  | nil => simp [deleteOneHabit]
  | cons x xs ih =>
    rw [List.map_cons, List.nodup_cons] at hnodup
    by_cases hx : x.oid = oid
    · simp only [deleteOneHabit, hx, if_true]
      intro hb hhb hcontra
      exact hnodup.1 (by
        rw [hx, ← hcontra]
        exact List.mem_map_of_mem HabitDoc.oid hhb)
    · simp only [deleteOneHabit, hx, if_false]
      intro hb hhb
      rcases List.mem_cons.mp hhb with rfl | hhb
      · exact hx
      · exact ih hnodup.2 hb hhb

theorem get_logs_eq_nil {s : DB} {hid : String}
    (h : ∀ l ∈ s.habitlog, l.habit_id ≠ hid) (st en : Option String) :
    get_logs hid st en s = [] := by
  rw [get_logs]
  split
  · exact List.filter_eq_nil_iff.mpr fun l hl => by simp [h l hl]
  · exact List.filter_eq_nil_iff.mpr fun l hl => by simp [h l hl]

/-- C4: deleting an existing habit by its id succeeds with `{ok: true}`,
removes the habit, and cascades: no log with that `habit_id` survives, so
`list_logs` for the habit returns the empty sequence for any bounds,
regardless of how many logs existed before. -/
theorem delete_habit_cascade (s : DB) (h : HabitDoc) (hmem : h ∈ s.habit)
    (hnodup : habitIdsNodup s) (hbound : h.oid < 16 ^ 24) :
    (delete_habit (oidToString h.oid) s).1 = .ok ∧
    (∀ hb ∈ (delete_habit (oidToString h.oid) s).2.habit, hb.oid ≠ h.oid) ∧
    (∀ l ∈ (delete_habit (oidToString h.oid) s).2.habitlog,
      l.habit_id ≠ oidToString h.oid) ∧
    (∀ st en,
      get_logs (oidToString h.oid) st en (delete_habit (oidToString h.oid) s).2
        = []) := by
  have hco := coerceObjectid_oidToString h.oid hbound
  have hcnt : ¬((deleteOneHabit h.oid s.habit).1 = 0) :=
    deleteOneHabit_fst_ne_zero hmem
  simp only [delete_habit, hco, hcnt, if_false]
  refine ⟨trivial, deleteOneHabit_snd_no_oid hnodup, ?_, ?_⟩
  · intro l hl
    have := List.of_mem_filter hl
    simpa using this
  · intro st en
    apply get_logs_eq_nil
    intro l hl
    have := List.of_mem_filter hl
    simpa using this

/-- A one-habit, one-log store: habit `0` with a log keyed by its id. -/
def dbOneHabit : DB :=
  ⟨[⟨0, "Read", none, "#6366f1", "daily", none, 0, 0⟩],
   [⟨1, oidToString 0, "2024-01-01", 1, 1, 1⟩], 2⟩

/-- Witness for C4 at a store holding one habit and one of its logs. -/
theorem delete_habit_cascade_witness :
    (delete_habit (oidToString (0 : Nat)) dbOneHabit).1 = .ok ∧
    (∀ hb ∈ (delete_habit (oidToString (0 : Nat)) dbOneHabit).2.habit,
      hb.oid ≠ (0 : Nat)) ∧
    (∀ l ∈ (delete_habit (oidToString (0 : Nat)) dbOneHabit).2.habitlog,
      l.habit_id ≠ oidToString (0 : Nat)) ∧
    (∀ st en,
      get_logs (oidToString (0 : Nat)) st en
        (delete_habit (oidToString (0 : Nat)) dbOneHabit).2 = []) :=
  delete_habit_cascade dbOneHabit ⟨0, "Read", none, "#6366f1", "daily", none, 0, 0⟩
    (by decide) (show (dbOneHabit.habit.map HabitDoc.oid).Nodup by decide)
    (by norm_num)

/-- C5: delete-habit answers `InvalidArgument` (HTTP 400) when the id does
not coerce to an ObjectId, and `NotFound` (HTTP 404) when the id is
well-formed but no habit carries it; in both cases the store is returned
unchanged. -/
theorem delete_habit_errors (s : DB) (idStr : String) :
    (coerceObjectid idStr = none →
      delete_habit idStr s = (.invalidId, s)) ∧
    (∀ oid, coerceObjectid idStr = some oid →
      (∀ hb ∈ s.habit, hb.oid ≠ oid) →
      delete_habit idStr s = (.notFound, s)) := by
  constructor
  · intro h
    simp only [delete_habit, h]
  · intro oid h hnone
    have h0 : deleteOneHabit oid s.habit = (0, s.habit) :=
      deleteOneHabit_of_not_mem hnone
    simp [delete_habit, h, h0]

/-- Witness for C5: a malformed id and a well-formed but absent id, both
against the empty store. -/
theorem delete_habit_errors_witness :
    delete_habit "zz" emptyDB = (.invalidId, emptyDB) ∧
    delete_habit (oidToString 5) emptyDB = (.notFound, emptyDB) :=
  ⟨(delete_habit_errors emptyDB "zz").1 (by decide),
   (delete_habit_errors emptyDB (oidToString 5)).2 5 (by decide) (by decide)⟩

/-- C6: `list_logs` returns precisely the logs whose `habit_id` equals the
given id; the closed day range (lexicographic on ISO date strings, hence
`String` order) applies only when both bounds are supplied — a start without
an end, or an end without a start, leaves the result unfiltered. -/
theorem get_logs_range_filter (s : DB) (hid : String) (st en : String) :
    get_logs hid none none s = s.habitlog.filter (fun l => l.habit_id == hid) ∧
    get_logs hid (some st) none s
      = s.habitlog.filter (fun l => l.habit_id == hid) ∧
    get_logs hid none (some en) s
      = s.habitlog.filter (fun l => l.habit_id == hid) ∧
    (st ≠ "" → en ≠ "" →
      get_logs hid (some st) (some en) s
        = s.habitlog.filter (fun l =>
            l.habit_id == hid && decide (st ≤ l.day) && decide (l.day ≤ en))) := by
  refine ⟨?_, ?_, ?_, ?_⟩
  · simp [get_logs, strTruthy]
  · simp [get_logs, strTruthy]
  · simp [get_logs, strTruthy]
  · intro hst hen
    simp [get_logs, strTruthy, hst, hen]

/-- Witness for C6's range branch at a concrete store and bounds. -/
theorem get_logs_range_filter_witness :
    get_logs "h" (some "2024-01-01") (some "2024-01-02") dbOneLog
      = dbOneLog.habitlog.filter (fun l =>
          l.habit_id == "h" && decide ("2024-01-01" ≤ l.day)
            && decide (l.day ≤ "2024-01-02")) :=
  (get_logs_range_filter dbOneLog "h" "2024-01-01" "2024-01-02").2.2.2
    (by decide) (by decide)

/-- C7: `list_habits` on the empty store is the empty sequence, and after
creating habits A, B, C in that order it returns exactly the three created
habits newest first: `[C, B, A]`. -/
theorem list_habits_newest_first (a b c : HabitIn) :
    list_habits emptyDB = [] ∧
    list_habits (create_habit c (create_habit b (create_habit a emptyDB).2).2).2
      = [(create_habit c (create_habit b (create_habit a emptyDB).2).2).1,
         (create_habit b (create_habit a emptyDB).2).1,
         (create_habit a emptyDB).1] := by
  constructor
  · rfl
  · simp [create_habit, emptyDB, list_habits, sortDescByCreated,
      insertDescByCreated, habitToOut]

/-- C8: create-habit does not reject the empty-string name: the payload is
persisted as-is with the two server-assigned timestamps, and the response is
the stored fields plus the stringified generated id, carrying no
timestamps. -/
theorem create_habit_accepts_empty_name (s : DB) (desc : Option String)
    (color freq : String) (dow : Option (List Int)) :
    create_habit ⟨"", desc, color, freq, dow⟩ s
      = (⟨oidToString s.counter, "", desc, color, freq, dow⟩,
         ⟨s.habit ++ [⟨s.counter, "", desc, color, freq, dow, s.counter, s.counter⟩],
          s.habitlog, s.counter + 1⟩) := rfl

/-- C9: toggle and `list_logs` validate nothing about `habit_id`: for a
string that delete-habit rejects as malformed (and that names no habit),
toggle still succeeds, inserting a log keyed by the raw string and answering
`{checked:true}`, and `list_logs` still succeeds, returning the logs stored
under that raw string. -/
theorem toggle_and_logs_skip_validation (s : DB) (hid day : String) (v : Int)
    (hmal : coerceObjectid hid = none)
    (hnolog : findOneLog hid day s.habitlog = none) :
    delete_habit hid s = (.invalidId, s) ∧
    (toggle_log hid day v s).1 = true ∧
    (toggle_log hid day v s).2.habitlog
      = s.habitlog ++ [⟨s.counter, hid, day, v, s.counter, s.counter⟩] ∧
    get_logs hid none none (toggle_log hid day v s).2
      = s.habitlog.filter (fun l => l.habit_id == hid)
        ++ [⟨s.counter, hid, day, v, s.counter, s.counter⟩] := by
  refine ⟨by simp only [delete_habit, hmal], ?_, ?_, ?_⟩
  · simp only [toggle_log, hnolog]
  · simp only [toggle_log, hnolog]
  · simp only [toggle_log, hnolog, get_logs, strTruthy]
    rw [List.filter_append]
    simp

/-- Witness for C9: a malformed id against the empty store. -/
theorem toggle_and_logs_skip_validation_witness :
    delete_habit "not-an-objectid" emptyDB = (.invalidId, emptyDB) ∧
    (toggle_log "not-an-objectid" "2024-01-01" 1 emptyDB).1 = true ∧
    (toggle_log "not-an-objectid" "2024-01-01" 1 emptyDB).2.habitlog
      = emptyDB.habitlog
        ++ [⟨emptyDB.counter, "not-an-objectid", "2024-01-01", 1,
              emptyDB.counter, emptyDB.counter⟩] ∧
    get_logs "not-an-objectid" none none
        (toggle_log "not-an-objectid" "2024-01-01" 1 emptyDB).2
      = emptyDB.habitlog.filter (fun l => l.habit_id == "not-an-objectid")
        ++ [⟨emptyDB.counter, "not-an-objectid", "2024-01-01", 1,
              emptyDB.counter, emptyDB.counter⟩] :=
  toggle_and_logs_skip_validation emptyDB "not-an-objectid" "2024-01-01" 1
    (by decide) (by decide)

end HabitTracker
